import Mathlib

/-!
Verification of the papis-uefiscdi extraction engine.

This file gives a shallow embedding of the parsing core of the repository:
the per-year PDF row grammars of src/papis_uefiscdi/pdf.py, the spreadsheet
row normalizer and quartile assembly of src/papis_uefiscdi/uefiscdi.py, and
the request-validation and effect order of parse_uefiscdi_database_from_url.

Modelling conventions:
- Python strings are Lean String (lists of characters); the inputs considered
  are the line lists the code receives after text extraction, so the PDF
  reader (pypdf) is abstracted: a page is a list of raw line strings.
- Python regular expressions are embedded by a small backtracking matcher
  (leftmost alternation preference, greedy and lazy one-character-class
  quantifiers), which covers exactly the constructs the two row patterns and
  the header fragments use.  The character class of Python backslash-w is
  modelled as ASCII alphanumeric or underscore, which is exact on the inputs
  considered here.
- Python float cells are modelled by the accepted literal token (an Option
  String); no claim below depends on the numeric value of a score.
- Exceptions are modelled by an Except monad; the messages keep the text of
  the Python messages with surrounding quote characters dropped.
-/

/- ## Python string primitives -/

/-- The whitespace characters of Python str.strip and of the regex class
backslash-s (space, tab, newline, carriage return, vertical tab, form feed). -/
def pyIsSpace (c : Char) : Bool :=
  c = ' ' || c = '\t' || c = '\n' || c = '\r' || c = '\x0b' || c = '\x0c'

/-- Python str.strip on a character list. -/
def pyStripList (cs : List Char) : List Char :=
  ((cs.dropWhile pyIsSpace).reverse.dropWhile pyIsSpace).reverse

/-- Python str.strip. -/
def pyStrip (s : String) : String := String.mk (pyStripList s.data)

/-- Python str.upper (ASCII, which is exact on the inputs considered). -/
def pyUpper (s : String) : String := String.mk (s.data.map Char.toUpper)

/-- Python membership test sub in s on character lists. -/
def listContains (s sub : List Char) : Bool :=
  match s with
  | [] => sub.isEmpty
  | _ :: rest => sub.isPrefixOf s || listContains rest sub

/-- Python membership test sub in s for strings. -/
def strContains (s sub : String) : Bool := listContains s.data sub.data

/-- Python int() on a digit-only string, as produced by the digit-only
regex group it is applied to. -/
def pyInt (s : String) : Int :=
  (s.data.foldl (fun n c => 10 * n + (c.toNat - 48)) (0 : Nat) : Nat)

/-- Python str() of an optional value: None prints as the four-character
string None. -/
def pyStrOfCell (c : Option String) : String :=
  match c with
  | some s => s
  | none => "None"

/-- Character walk of the title-case normalization: a character at the start
of a space-separated word is uppercased, every other character is kept. -/
def titlecaseAux : Bool → List Char → List Char
  | _, [] => []
  | atStart, c :: cs =>
    if c = ' ' then c :: titlecaseAux true cs
    else (if atStart then c.toUpper else c) :: titlecaseAux false cs

/-- Modelled from the spec: the external titlecase collaborator is specified
only as the normalization of a journal title to title case (spec section 3).
The first letter of every space-separated word is uppercased and the rest of
the word is kept. -/
def titlecase (s : String) : String := String.mk (titlecaseAux true s.data)

/- ## A small regular-expression engine

The engine supports exactly the constructs used by the compiled patterns of
pdf.py: literals, single-character classes, concatenation, alternation with
leftmost preference, an optional single-character class (the pattern
backslash-s-question), greedy and lazy plus over a character class, counted
repetition of a character class, and numbered capture groups.  Matching is
full backtracking, as in the Python re module. -/

inductive RE where
  /-- A literal character sequence. -/
  | lit : List Char → RE
  /-- A single character matching the class. -/
  | cls : (Char → Bool) → RE
  | cat : RE → RE → RE
  /-- Alternation, left branch preferred (Python leftmost semantics). -/
  | alt : RE → RE → RE
  /-- An optional single character of the class (greedy, as in backslash-s-question). -/
  | opt : (Char → Bool) → RE
  /-- One or more characters of the class; the flag is true for greedy plus
  and false for lazy plus-question. -/
  | plus : Bool → (Char → Bool) → RE
  /-- Exactly n characters of the class. -/
  | rep : Nat → (Char → Bool) → RE
  /-- Capture group with its Python group number. -/
  | group : Nat → RE → RE

/-- Recorded captures: group number, start offset, end offset. -/
abbrev Caps := List (Nat × Nat × Nat)

/-- A match result: end offset of the whole match and the captures. -/
abbrev MRes := Nat × Caps

/-- Drop a literal from the front of the input, if it is there. -/
def dropLit : List Char → List Char → Option (List Char)
  | [], cs => some cs
  | _ :: _, [] => none
  | l :: ls, c :: cs => if l = c then dropLit ls cs else none

/-- The Kleene part of a plus over a character class, in continuation style.
Greedy first tries to extend the run, lazy first tries the continuation. -/
def starCls (greedy : Bool) (p : Char → Bool) (k : List Char → Nat → Caps → Option MRes) :
    List Char → Nat → Caps → Option MRes
  | [], pos, caps => k [] pos caps
  | c :: cs, pos, caps =>
    if greedy then
      (if p c then starCls greedy p k cs (pos + 1) caps else none) <|> k (c :: cs) pos caps
    else
      k (c :: cs) pos caps <|> (if p c then starCls greedy p k cs (pos + 1) caps else none)

/-- Exactly n characters of a class, in continuation style. -/
def repCls (p : Char → Bool) (k : List Char → Nat → Caps → Option MRes) :
    Nat → List Char → Nat → Caps → Option MRes
  | 0, cs, pos, caps => k cs pos caps
  | _ + 1, [], _, _ => none
  | n + 1, c :: cs, pos, caps => if p c then repCls p k n cs (pos + 1) caps else none

/-- The backtracking matcher in continuation style.  The continuation
receives the remaining input, the current offset and the captures. -/
def mtch : RE → List Char → Nat → Caps → (List Char → Nat → Caps → Option MRes) → Option MRes
  | .lit s, cs, pos, caps, k =>
    match dropLit s cs with
    | some rest => k rest (pos + s.length) caps
    | none => none
  | .cls p, cs, pos, caps, k =>
    match cs with
    | [] => none
    | c :: rest => if p c then k rest (pos + 1) caps else none
  | .cat a b, cs, pos, caps, k =>
    mtch a cs pos caps (fun cs1 pos1 caps1 => mtch b cs1 pos1 caps1 k)
  | .alt a b, cs, pos, caps, k =>
    mtch a cs pos caps k <|> mtch b cs pos caps k
  | .opt p, cs, pos, caps, k =>
    (match cs with
     | [] => none
     | c :: rest => if p c then k rest (pos + 1) caps else none) <|> k cs pos caps
  | .plus g p, cs, pos, caps, k =>
    match cs with
    | [] => none
    | c :: rest => if p c then starCls g p k rest (pos + 1) caps else none
  | .rep n p, cs, pos, caps, k => repCls p k n cs pos caps
  | .group i r, cs, pos, caps, k =>
    mtch r cs pos caps (fun cs1 pos1 caps1 => k cs1 pos1 ((i, pos, pos1) :: caps1))

/-- Try to match the pattern at a fixed position of the input. -/
def matchAt (r : RE) (cs : List Char) (pos : Nat) : Option MRes :=
  mtch r cs pos [] (fun _ e caps => some (e, caps))

/-- Python re.search as a Boolean: is there a match at some position. -/
def searchAux (r : RE) : List Char → Nat → Bool
  | [], pos => (matchAt r [] pos).isSome
  | c :: cs, pos => (matchAt r (c :: cs) pos).isSome || searchAux r cs (pos + 1)

/-- Python re.search as a Boolean. -/
def reSearch (r : RE) (s : String) : Bool := searchAux r s.data 0

/-- One scanning step bound of re.finditer: returns the list of
non-overlapping matches (start, end, captures), scanning left to right and
resuming after each match.  The fuel bounds the number of scan steps and is
instantiated with one more than the input length, which always suffices. -/
def finditerAux (r : RE) : Nat → List Char → Nat → List (Nat × Nat × Caps)
  | 0, _, _ => []
  | fuel + 1, cs, pos =>
    match matchAt r cs pos with
    | some (e, caps) =>
      if e - pos = 0 then
        (pos, e, caps) ::
          (match cs with
           | [] => []
           | _ :: rest => finditerAux r fuel rest (pos + 1))
      else
        (pos, e, caps) :: finditerAux r fuel (cs.drop (e - pos)) e
    | none =>
      match cs with
      | [] => []
      | _ :: rest => finditerAux r fuel rest (pos + 1)

/-- Python re.finditer: all non-overlapping matches, left to right. -/
def finditer (r : RE) (s : String) : List (Nat × Nat × Caps) :=
  finditerAux r (s.data.length + 1) s.data 0

/-- The string captured by a group: the substring between its recorded
offsets.  The most recently recorded capture of the group wins, as in
Python.  All groups of the patterns embedded here participate in every
match, so the fallback empty string is never reached on real matches. -/
def capStr (cs : List Char) (caps : Caps) (i : Nat) : String :=
  match caps.find? (fun t => t.1 = i) with
  | some t => String.mk ((cs.drop t.2.1).take (t.2.2 - t.2.1))
  | none => ""

/-- The tuple match.groups() of a match with n groups, as a list. -/
def groupsOf (n : Nat) (cs : List Char) (caps : Caps) : List String :=
  (List.range n).map (fun i => capStr cs caps (i + 1))

/- ## The compiled patterns of pdf.py -/

/-- The regex class backslash-w (ASCII view, exact on the inputs here). -/
def isWordChar (c : Char) : Bool := c.isAlphanum || c = '_'

/-- The 2023 category class, the bracket class of word characters, space,
ampersand, comma and hyphen. -/
def clsCat (c : Char) : Bool := isWordChar c || c = ' ' || c = '&' || c = ',' || c = '-'

/-- The journal-name class, the bracket class of parentheses, word
characters, space, ampersand and hyphen. -/
def clsName (c : Char) : Bool :=
  isWordChar c || c = '(' || c = ')' || c = ' ' || c = '&' || c = '-'

/-- The class of a decimal digit, the pattern backslash-d. -/
def isDigitCh (c : Char) : Bool := c.isDigit

/-- The bracket class of a digit, x or X closing an ISSN. -/
def isDigitxX (c : Char) : Bool := c.isDigit || c = 'x' || c = 'X'

/-- An ISSN-shaped token or the N/A sentinel, the alternation used for the
issn and eissn groups of both row patterns. -/
def issnRE : RE :=
  .alt (.cat (.rep 4 isDigitCh) (.cat (.lit ['-']) (.cat (.rep 3 isDigitCh) (.cls isDigitxX))))
    (.lit "N/A".data)

/-- A quartile token Q1 to Q4 or the N/A sentinel. -/
def quartRE : RE :=
  .alt (.cat (.lit ['Q']) (.cls (fun c => c = '1' || c = '2' || c = '3' || c = '4')))
    (.lit "N/A".data)

/-- The index-code alternation AHCI, ESCI, SCIE or SSCI. -/
def indexRE : RE :=
  .alt (.lit "AHCI".data) (.alt (.lit "ESCI".data) (.alt (.lit "SCIE".data) (.lit "SSCI".data)))

/-- Right-nested concatenation of a pattern list. -/
def reSeq : List RE → RE
  | [] => .lit []
  | [r] => r
  | r :: rs => .cat r (reSeq rs)

/-- The row pattern _LINE_2023_RE of pdf.py: category, the separator
space-hyphen-space, index, optional whitespace, lazy journal name, optional
whitespace, issn, space, eissn, optional whitespace, quartile, space and a
trailing digit run for the position. -/
def line2023RE : RE :=
  reSeq [
    .group 1 (.plus true clsCat),
    .lit " - ".data,
    .group 2 indexRE,
    .opt pyIsSpace,
    .group 3 (.plus false clsName),
    .opt pyIsSpace,
    .group 4 issnRE,
    .lit [' '],
    .group 5 issnRE,
    .opt pyIsSpace,
    .group 6 quartRE,
    .lit [' '],
    .group 7 (.plus true isDigitCh)]

/-- The row pattern _LINE_2024_RE of pdf.py: lazy journal name, optional
whitespace, issn, space, eissn, optional whitespace, lazy category, optional
whitespace, index, space, JIF quartile, space and AIS quartile. -/
def line2024RE : RE :=
  reSeq [
    .group 1 (.plus false clsName),
    .opt pyIsSpace,
    .group 2 issnRE,
    .lit [' '],
    .group 3 issnRE,
    .opt pyIsSpace,
    .group 4 (.plus false clsCat),
    .opt pyIsSpace,
    .group 5 indexRE,
    .lit [' '],
    .group 6 quartRE,
    .lit [' '],
    .group 7 quartRE]

/-- The header fragments _HEADER_FRAGMENTS_2023 of pdf.py. -/
def headerFragments2023 : List RE :=
  [.lit "Web of Science Category-Index".data,
   .lit "Revista".data,
   .lit "ISSN".data,
   .lit "eISSN".data,
   reSeq [.lit "Q ".data, .group 1 (.alt (.lit "JIF".data) (.lit "AIS".data)), .lit " 2022".data],
   .lit "conform JCR".data,
   .lit "iunie 2023".data,
   .lit "Loc in zona".data,
   reSeq [.lit "Q ".data, .group 1 (.alt (.lit "JIF".data) (.lit "AIS".data))]]

/-- The header column names HEADER_NAMES_2024 of pdf.py. -/
def HEADER_NAMES_2024 : List String :=
  ["Journal name", "ISSN", "eISSN", "Category", "Edition", "JIF Quartile", "AIS Quartile"]

/- ## The data model of uefiscdi.py -/

/-- The Entry TypedDict of uefiscdi.py.  The score is modelled by the
accepted float literal token, as explained in the header. -/
structure Entry where
  category : Option String
  index : Option String
  name : Option String
  issn : Option String
  eissn : Option String
  quartile : Option String
  position : Option Int
  score : Option String
deriving DecidableEq, Repr

/-- The Python exceptions the embedded code can raise. -/
inductive PyErr where
  | valueError : String → PyErr
  | runtimeError : String → PyErr
  | fileNotFoundError : String → PyErr
deriving DecidableEq, Repr

/- ## parse_2023_quartile_zone_entries and parse_2024_quartile_zone_entries -/

/-- The row2entry closure of parse_2023_quartile_zone_entries: the seven
stripped groups decode as category, index, name, issn, eissn, quartile and
position, with N/A mapped to an absent field and no score. -/
def row2entry2023 (gs0 : List String) : Entry :=
  let gs := gs0.map pyStrip
  { category := some (titlecase (gs.getD 0 ""))
    index := some (pyUpper (gs.getD 1 ""))
    name := some (titlecase (gs.getD 2 ""))
    issn := if gs.getD 3 "" = "N/A" then none else some (pyUpper (gs.getD 3 ""))
    eissn := if gs.getD 4 "" = "N/A" then none else some (pyUpper (gs.getD 4 ""))
    quartile := if gs.getD 5 "" = "N/A" then none else some (pyUpper (gs.getD 5 ""))
    position := some (pyInt (gs.getD 6 ""))
    score := none }

/-- The row2entry closure of parse_2024_quartile_zone_entries, with the
quartile group index selected by the format (5 for jif, 6 for ais) and the
position fixed to the sentinel -1. -/
def row2entry2024 (qidx : Nat) (gs0 : List String) : Entry :=
  let gs := gs0.map pyStrip
  { category := some (titlecase (pyStrip (gs.getD 3 "")))
    index := some (pyUpper (gs.getD 4 ""))
    name := some (titlecase (pyStrip (gs.getD 0 "")))
    issn := if gs.getD 1 "" = "N/A" then none else some (pyUpper (gs.getD 1 ""))
    eissn := if gs.getD 2 "" = "N/A" then none else some (pyUpper (gs.getD 2 ""))
    quartile := if gs.getD qidx "" = "N/A" then none else some (pyUpper (gs.getD qidx ""))
    position := some (-1)
    score := none }

/-- The row-accumulation loop shared by both grammars: each line is appended
to the pending row buffer behind a space; if the row pattern now matches,
all matches decode and the buffer resets, otherwise the buffer is kept. -/
def entriesLoop (re : RE) (dec : List String → Entry) :
    List String → String → List Entry → List Entry
  | [], _, acc => acc
  | line :: rest, row, acc =>
    let row1 := row ++ " " ++ line
    let new := (finditer re row1).map (fun m => dec (groupsOf 7 row1.data m.2.2))
    if new.isEmpty then entriesLoop re dec rest row1 acc
    else entriesLoop re dec rest "" (acc ++ new)

/-- Whether a line matches at least one 2023 header fragment, the per-line
test of the 2023 header scan. -/
def matchesHeader2023 (line : String) : Bool :=
  headerFragments2023.any (fun r => reSearch r line)

/-- Whether a line contains every 2024 header name, the per-line test of the
2024 header scan. -/
def containsAllHeader2024 (line : String) : Bool :=
  HEADER_NAMES_2024.all (fun n => strContains line n)

/-- Whether a line contains at least one 2024 header name (this is the
per-line condition the generic header-locator claim speaks of, not the one
the 2024 scan tests). -/
def matchesHeader2024 (line : String) : Bool :=
  HEADER_NAMES_2024.any (fun n => strContains line n)

/-- The header scan of parse_2023_quartile_zone_entries: the offset is the
first index whose line matches no header fragment while the previous line
matched one; if no such transition occurs the offset stays 0. -/
def locate2023Aux : List String → Nat → Bool → Nat
  | [], _, _ => 0
  | line :: rest, i, prev =>
    let isOn := matchesHeader2023 line
    if !isOn && prev then i else locate2023Aux rest (i + 1) isOn

/-- The header offset of the 2023 grammar. -/
def locate2023 (lines : List String) : Nat := locate2023Aux lines 0 false

/-- The header scan of parse_2024_quartile_zone_entries: one past the first
line containing every 2024 header name, with default 0. -/
def locate2024 : List String → Nat → Nat
  | [], _ => 0
  | line :: rest, i =>
    if containsAllHeader2024 line then i + 1
    else locate2024 rest (i + 1)

/-- The Python slice lines[offset:-1]: all lines strictly between the offset
and the final line. -/
def sliceToLast (lines : List String) (offset : Nat) : List String :=
  (lines.take (lines.length - 1)).drop offset

/-- The rows decoded by the 2023 grammar on one page, before the emptiness
check: the accumulation loop run over lines[offset:-1]. -/
def decoded2023 (lines : List String) : List Entry :=
  entriesLoop line2023RE row2entry2023 (sliceToLast lines (locate2023 lines)) "" []

/-- The rows decoded by the 2024 grammar on one page, before the emptiness
check, for the given quartile group index. -/
def decoded2024 (qidx : Nat) (lines : List String) : List Entry :=
  entriesLoop line2024RE (row2entry2024 qidx) (sliceToLast lines (locate2024 lines 0)) "" []

/-- parse_2023_quartile_zone_entries of pdf.py on one page worth of raw
lines: format validation, header skip, row accumulation over
lines[offset:-1], and the RuntimeError when the page decodes no row. -/
def parse_2023_quartile_zone_entries (lines : List String) (fmt : String) :
    Except PyErr (List Entry) :=
  if fmt ≠ "ais" ∧ fmt ≠ "jif" then
    .error (.valueError ("Unsupported fmt: " ++ fmt))
  else
    let entries := decoded2023 lines
    if entries.isEmpty then .error (.runtimeError "No journals found on page")
    else .ok entries

/-- parse_2024_quartile_zone_entries of pdf.py on one page worth of raw
lines. -/
def parse_2024_quartile_zone_entries (lines : List String) (fmt : String) :
    Except PyErr (List Entry) :=
  if fmt ≠ "ais" ∧ fmt ≠ "jif" then
    .error (.valueError ("Unsupported fmt: " ++ fmt))
  else
    let qidx := if fmt = "jif" then 5 else 6
    let entries := decoded2024 qidx lines
    if entries.isEmpty then .error (.runtimeError "No journals found on page")
    else .ok entries

/- ## The quartile assembly of uefiscdi.py -/

/-- The supported grammar versions _SUPPORTED_VERSIONS of uefiscdi.py. -/
def SUPPORTED_VERSIONS : List Nat := [2023, 2024]

/-- Python string comparison on character lists: lexicographic by code
point. -/
def charListLt : List Char → List Char → Bool
  | [], [] => false
  | [], _ :: _ => true
  | _ :: _, [] => false
  | a :: as, b :: bs =>
    if a.toNat < b.toNat then true
    else if b.toNat < a.toNat then false
    else charListLt as bs

/-- Python string less-than. -/
def strLtB (a b : String) : Bool := charListLt a.data b.data

/-- The sort key of the two quartile parsers of uefiscdi.py: index, category,
quartile with the Q9 sentinel for an absent quartile, and position.  On
parser outputs the index, category and position fields are always present,
so the defaults of the first, second and fourth components never apply; the
third component is exactly the Python expression with the Q9 default. -/
def sortKey (e : Entry) : String × String × String × Int :=
  (e.index.getD "", e.category.getD "", e.quartile.getD "Q9", e.position.getD 0)

/-- One lexicographic step of Python tuple comparison: strictly smaller or
strictly larger first component decides, a tie defers to the rest. -/
def lexLe (lt : α → α → Bool) (le : β → β → Bool) (x y : α × β) : Bool :=
  if lt x.1 y.1 then true
  else if lt y.1 x.1 then false
  else le x.2 y.2

/-- Python integer comparison as a Boolean. -/
def intLeB (a b : Int) : Bool := decide (a ≤ b)

/-- Python tuple comparison of two sort keys: lexicographic. -/
def keyLeB : String × String × String × Int → String × String × String × Int → Bool :=
  lexLe strLtB (lexLe strLtB (lexLe strLtB intLeB))

/-- The entry order used by sorted(results, key=...) in both quartile
parsers. -/
def entryLeB (a b : Entry) : Bool := keyLeB (sortKey a) (sortKey b)

/-- Stable insertion of an element into a sorted list: the element goes
after every already-present element that compares less than or equal, so
earlier elements stay before later equal ones, as in Python sorted. -/
def insertLe (le : Entry → Entry → Bool) (x : Entry) : List Entry → List Entry
  | [] => [x]
  | y :: ys => if le y x then y :: insertLe le x ys else x :: y :: ys

/-- Python sorted with the canonical quartile key: a stable comparison sort
by the key, modelled as stable insertion sort (Python sorted is specified
as a stable sort, and every stable comparison sort agrees with it). -/
def sortEntries (es : List Entry) : List Entry :=
  es.foldl (fun acc x => insertLe entryLeB x acc) []

/-- The per-page dispatch of the quartile parsers: the 2024 grammar on
version 2024, the 2023 grammar on version 2023. -/
def pageParse (version : Nat) (fmt : String) (page : List String) : Except PyErr (List Entry) :=
  if version = 2024 then parse_2024_quartile_zone_entries page fmt
  else parse_2023_quartile_zone_entries page fmt

/-- The page loop of the quartile parsers: results.extend(journals) page by
page, aborting on the first page whose parse raises. -/
def quartileFold (step : List String → Except PyErr (List Entry)) :
    List (List String) → List Entry → Except PyErr (List Entry)
  | [], acc => .ok acc
  | page :: rest, acc =>
    match step page with
    | .error e => .error e
    | .ok js => quartileFold step rest (acc ++ js)

/-- The shared body of parse_uefiscdi_journal_impact_factor_quartile and
parse_uefiscdi_article_influence_score_quartile of uefiscdi.py, from the
extracted page line lists on: version validation, the per-page grammar, and
the final sort by index, category, quartile-or-Q9 and position.  The file
existence check and pypdf text extraction are abstracted into the pages
input; the two Python functions differ only in the fmt argument. -/
def parseQuartilePages (fmt : String) (pages : List (List String)) (version : Nat) :
    Except PyErr (List Entry) :=
  if (SUPPORTED_VERSIONS.contains version) = false then
    .error (.valueError ("Unknown version " ++ toString version))
  else
    match quartileFold (pageParse version fmt) pages [] with
    | .error e => .error e
    | .ok results => .ok (sortEntries results)

/-- parse_uefiscdi_journal_impact_factor_quartile of uefiscdi.py, on the
extracted pages. -/
def parse_uefiscdi_journal_impact_factor_quartile
    (pages : List (List String)) (version : Nat) : Except PyErr (List Entry) :=
  parseQuartilePages "jif" pages version

/-- parse_uefiscdi_article_influence_score_quartile of uefiscdi.py, on the
extracted pages. -/
def parse_uefiscdi_article_influence_score_quartile
    (pages : List (List String)) (version : Nat) : Except PyErr (List Entry) :=
  parseQuartilePages "ais" pages version

/- ## The spreadsheet score parser of uefiscdi.py -/

/-- One worksheet row after the per-year normalizer: the seven cell string
values journal, issn, eissn, category, index, score and quartile, in the
unpack order of _parse_score_entries; an empty cell is none. -/
structure SRow where
  journal : Option String
  issn : Option String
  eissn : Option String
  category : Option String
  index : Option String
  score : Option String
  quartile : Option String
deriving DecidableEq, Repr

/-- Python str.split with a separator, on character lists, fuel bounded by
the input length (the separator of the code, the space-hyphen-space string,
is never empty). -/
def splitSepAux (sep : List Char) : Nat → List Char → List Char → List (List Char)
  | _, [], acc => [acc.reverse]
  | 0, cs, acc => [acc.reverse ++ cs]
  | fuel + 1, c :: cs, acc =>
    if sep.isPrefixOf (c :: cs) then
      acc.reverse :: splitSepAux sep fuel (cs.drop (sep.length - 1)) []
    else splitSepAux sep fuel cs (c :: acc)

/-- Python str.split(sep) for a non-empty separator. -/
def pySplit (s sep : String) : List String :=
  (splitSepAux sep.data (s.data.length + 1) s.data []).map String.mk

/-- _normalize_2024_ais_row of uefiscdi.py: a six-cell row maps to the
seven-tuple with no quartile; any other arity fails the tuple unpack. -/
def _normalize_2024_ais_row (row : List (Option String)) : Except PyErr SRow :=
  match row with
  | [journal, issn, eissn, category, index, score] =>
    .ok ⟨journal, issn, eissn, category, index, score, none⟩
  | _ => .error (.valueError "tuple unpack arity mismatch")

/-- _normalize_2023_ais_row of uefiscdi.py: the combined category cell is
split on space-hyphen-space into category and index (any other part count
fails the unpack), and the quartile cell maps N/A to an absent value after
uppercasing the str() form of the cell. -/
def _normalize_2023_ais_row (row : List (Option String)) : Except PyErr SRow :=
  match row with
  | [journal, issn, eissn, categoryIndex, score, quartileValue] =>
    match pySplit (pyStrOfCell categoryIndex) " - " with
    | [category, index] =>
      let q := pyUpper (pyStrOfCell quartileValue)
      .ok ⟨journal, issn, eissn, some category, some index, score,
           if q = "N/A" then none else some q⟩
    | _ => .error (.valueError "tuple unpack arity mismatch")
  | _ => .error (.valueError "tuple unpack arity mismatch")

/-- _normalize_rif_ris_row of uefiscdi.py: a four-cell row maps to the
seven-tuple with no category, index or quartile. -/
def _normalize_rif_ris_row (row : List (Option String)) : Except PyErr SRow :=
  match row with
  | [journal, issn, eissn, score] => .ok ⟨journal, issn, eissn, none, none, score, none⟩
  | _ => .error (.valueError "tuple unpack arity mismatch")

/-- The mantissa of a Python float literal: a digit run, optionally with a
decimal point, at least one digit in total; returns the remaining input. -/
def pyFloatMant (cs : List Char) : Option (List Char) :=
  let p1 := cs.span Char.isDigit
  match p1.2 with
  | '.' :: r2 =>
    let p2 := r2.span Char.isDigit
    if p1.1.isEmpty && p2.1.isEmpty then none else some p2.2
  | _ => if p1.1.isEmpty then none else some p1.2

/-- The exponent tail of a Python float literal, or the end of the token. -/
def pyFloatExpTail : List Char → Bool
  | [] => true
  | c :: rest =>
    if c = 'e' || c = 'E' then
      let rest1 := match rest with
        | s :: r => if s = '+' || s = '-' then r else s :: r
        | [] => []
      let p := rest1.span Char.isDigit
      !p.1.isEmpty && p.2.isEmpty
    else false

/-- Whether Python float() accepts the string: optional surrounding
whitespace and sign, then a decimal literal with optional exponent, or one
of the words inf, infinity and nan case-insensitively.  (The digit-group
underscores of PEP 515 are not modelled; no input here uses them.) -/
def isPyFloatTok (s : String) : Bool :=
  let cs0 := pyStripList s.data
  let cs := match cs0 with
    | c :: r => if c = '+' || c = '-' then r else c :: r
    | [] => []
  let low := String.mk (cs.map Char.toLower)
  if low = "inf" || low = "infinity" || low = "nan" then true
  else
    match pyFloatMant cs with
    | some rest => pyFloatExpTail rest
    | none => false

/-- The try float(score) of _parse_score_entries: the accepted literal token
stands for the parsed value, a rejected token becomes an absent score (the
ValueError is caught). -/
def pyFloatTok (s : String) : Option String := if isPyFloatTok s then some s else none

/-- The Entry appended by one non-sentinel iteration of the row loop of
_parse_score_entries: title case on journal and category, uppercase on the
index, ISSN cells kept only when their stripped uppercased str() form has
length nine, the quartile passed through, no position, and the float-parsed
score. -/
def scoreEntry (r : SRow) (scoreStr : String) : Entry :=
  let issn1 := pyUpper (pyStrip (pyStrOfCell r.issn))
  let eissn1 := pyUpper (pyStrip (pyStrOfCell r.eissn))
  { category := match r.category with
      | some c => some (titlecase (pyStrip c))
      | none => none
    index := match r.index with
      | some i => some (pyUpper (pyStrip i))
      | none => none
    name := match r.journal with
      | some j => some (titlecase (pyStrip j))
      | none => none
    issn := if issn1.length = 9 then some issn1 else none
    eissn := if eissn1.length = 9 then some eissn1 else none
    quartile := r.quartile
    position := none
    score := pyFloatTok scoreStr }

/-- The row loop of _parse_score_entries: the loop breaks at the first row
whose score cell is empty, every earlier row appends exactly one Entry, and
a normalizer failure propagates. -/
def scoreLoop (getter : List (Option String) → Except PyErr SRow) :
    List (List (Option String)) → Except PyErr (List Entry)
  | [] => .ok []
  | row :: rest =>
    match getter row with
    | .error e => .error e
    | .ok r =>
      match r.score with
      | none => .ok []
      | some scoreStr =>
        match scoreLoop getter rest with
        | .error err => .error err
        | .ok restEntries => .ok (scoreEntry r scoreStr :: restEntries)

/-- _parse_score_entries of uefiscdi.py over the worksheet rows (each row
the list of its cell string values): the first row is the header consumed by
next(rows) (an empty sheet raises StopIteration), the rest feed the row
loop. -/
def _parse_score_entries (getter : List (Option String) → Except PyErr SRow)
    (rows : List (List (Option String))) : Except PyErr (List Entry) :=
  match rows with
  | [] => .error (.runtimeError "StopIteration")
  | _header :: rest => scoreLoop getter rest

/- ## parse_uefiscdi_database_from_url: validation and effect order -/

/-- The observable I/O steps of a database request, in order: a local
existence check of a path, a network download of a URL, and opening a
document for decryption or parsing. -/
inductive Effect where
  | statLocal : String → Effect
  | download : String → Effect
  | openFile : String → Effect
deriving DecidableEq, Repr

/-- The UEFISCDI_DATABASE_URL table of config.py: release year to the five
database URLs, in source order. -/
def UEFISCDI_DATABASE_URL : List (Nat × List (String × String)) :=
  [(2024,
    [("aisq", "https://uefiscdi.gov.ro/resource-861733-JCR.iunie.2024.pdf"),
     ("jifq", "https://uefiscdi.gov.ro/resource-861733-JCR.iunie.2024.pdf"),
     ("ais", "https://uefiscdi.gov.ro/resource-861731-AIS.JCR2023.iunie2024.xlsx"),
     ("ris", "https://uefiscdi.gov.ro/resource-861773-RIS.2023iunie2024.xlsx"),
     ("rif", "https://uefiscdi.gov.ro/resource-861735-FIR.2023iunie2024.xlsx")]),
   (2023,
    [("aisq", "https://uefiscdi.gov.ro/resource-866007-zone.iunie.2023.ais.pdf"),
     ("jifq", "https://uefiscdi.gov.ro/resource-866009-zone.iunie.2023.jif.pdf"),
     ("ais", "https://uefiscdi.gov.ro/resource-863884-ais_2022.xlsx"),
     ("ris", "https://uefiscdi.gov.ro/resource-863882-ris_2022.xlsx"),
     ("rif", "https://uefiscdi.gov.ro/resource-863887-rif_2022.xlsx")]),
   (2022,
    [("aisq", "https://uefiscdi.gov.ro/resource-862159-zone.2022.ais.pdf"),
     ("jifq", "https://uefiscdi.gov.ro/resource-862151-zone.2022.if.pdf"),
     ("ais", "https://uefiscdi.gov.ro/resource-862108-ais.2021.xlsx"),
     ("ris", "https://uefiscdi.gov.ro/resource-862102-ris.2021.xlsx"),
     ("rif", "https://uefiscdi.gov.ro/resource-862155-rif.2021.xlsx")]),
   (2021,
    [("aisq", "https://uefiscdi.gov.ro/resource-820923-ais2021.pdf"),
     ("jifq", "https://uefiscdi.gov.ro/resource-820921-if2021.pdf"),
     ("ais", "https://uefiscdi.gov.ro/resource-820980-ais.2020.xlsx"),
     ("ris", "https://uefiscdi.gov.ro/resource-820984-sri.2020.xlsx"),
     ("rif", "https://uefiscdi.gov.ro/resource-820987-rif.2020.xlsx")]),
   (2020,
    [("aisq", "https://uefiscdi.gov.ro/resource-821878-clasament2020.ais.pdf"),
     ("jifq", "https://uefiscdi.gov.ro/resource-821873-clasament2020.if.pdf"),
     ("ais", "https://uefiscdi.gov.ro/resource-821312-ais2019-iunie2020-.valori.cuartile.xlsx"),
     ("ris", "https://uefiscdi.gov.ro/resource-829001-sri.2019.xlsx"),
     ("rif", "https://uefiscdi.gov.ro/resource-829003-rif.2019.xlsx")]),
   (2019,
    [("aisq", "https://uefiscdi.gov.ro/resource-822841"),
     ("jifq", "https://uefiscdi.gov.ro/resource-822843"),
     ("ais", "https://uefiscdi.gov.ro/resource-828068"),
     ("ris", "https://uefiscdi.gov.ro/resource-828022"),
     ("rif", "https://uefiscdi.gov.ro/resource-828027")])]

/-- Modelled from the spec: config.py as captured here does not define
UEFISCDI_DEFAULT_PASSWORD although uefiscdi.py imports it; the spec
describes the password collaborator with the default published value, which
the ais parser also uses as its own default. -/
def UEFISCDI_DEFAULT_PASSWORD : String := "uefiscdi"

/-- Python max(UEFISCDI_DATABASE_URL): the largest release year of the
table. -/
def maxUrlVersion : Nat := (UEFISCDI_DATABASE_URL.map Prod.fst).foldl Nat.max 0

/-- The outcome of a database request: the I/O effects performed, in order,
and either the raised exception or the arrival at content parsing of the
downloaded document. -/
structure UrlOutcome where
  effects : List Effect
  result : Except PyErr Unit

/-- parse_uefiscdi_database_from_url of uefiscdi.py, up to content parsing:
the version defaults to the newest table year and must be a table key, the
database id must be mapped for that year, the URL defaults from the table;
then the local path is checked (an existing local path raises
FileNotFoundError before any parsing), the document is downloaded (a failed
download raises FileNotFoundError), and the per-database parser runs.  The
quartile parsers check that the downloaded file exists and then their
version support; the score parsers check their version support and then
open the workbook.  The environment enters through the two function
parameters: which local paths exist, and what a download of a URL returns
(the downloaded file itself always exists).  Content parsing itself is
abstracted as the ok outcome. -/
def parse_uefiscdi_database_from_url (database : String) (url0 : Option String)
    (version0 : Option Nat) (localExists : String → Bool)
    (downloadResult : String → Option String) : UrlOutcome :=
  let version := version0.getD maxUrlVersion
  match UEFISCDI_DATABASE_URL.lookup version with
  | none => ⟨[], .error (.valueError ("Unsupported version: " ++ toString version))⟩
  | some dbs =>
    match dbs.lookup database with
    | none => ⟨[], .error (.valueError ("Unknown database " ++ database))⟩
    | some defaultUrl =>
      let url := url0.getD defaultUrl
      if localExists url then
        ⟨[.statLocal url], .error (.fileNotFoundError url)⟩
      else
        match downloadResult url with
        | none => ⟨[.statLocal url, .download url], .error (.fileNotFoundError url)⟩
        | some filename =>
          if database = "aisq" ∨ database = "jifq" then
            if SUPPORTED_VERSIONS.contains version then
              ⟨[.statLocal url, .download url, .statLocal filename, .openFile filename],
               .ok ()⟩
            else
              ⟨[.statLocal url, .download url, .statLocal filename],
               .error (.valueError ("Unknown version " ++ toString version))⟩
          else
            if SUPPORTED_VERSIONS.contains version then
              ⟨[.statLocal url, .download url, .openFile filename], .ok ()⟩
            else
              ⟨[.statLocal url, .download url],
               .error (.valueError ("Unknown version " ++ toString version))⟩

/-- The 9-character NNNN-NNNN shape of the spec wording for ISSN codes
(case-insensitive: the final check character may also be x or X).  This
definition follows the words of the spec, for comparison against the
behavior of the code. -/
def issnShapeSpec (s : String) : Bool :=
  match s.data with
  | [a, b, c, d, h, e, f, g, i] =>
    a.isDigit && b.isDigit && c.isDigit && d.isDigit && h = '-' &&
    e.isDigit && f.isDigit && g.isDigit && (i.isDigit || i = 'x' || i = 'X')
  | _ => false

/- ## Order lemmas for the sort key -/

theorem charListLt_trans : ∀ a b c : List Char,
    charListLt a b = true → charListLt b c = true → charListLt a c = true := by
  intro a
  induction a with
  | nil =>
    intro b c hab hbc
    cases b with
    | nil => simp [charListLt] at hab
    | cons y ys =>
      cases c with
      | nil => simp [charListLt] at hbc
      | cons z zs => simp [charListLt]
  | cons x xs ih =>
    intro b c hab hbc
    cases b with
    | nil => simp [charListLt] at hab
    | cons y ys =>
      cases c with
      | nil => simp [charListLt] at hbc
      | cons z zs =>
        simp only [charListLt] at hab hbc ⊢
        by_cases hxy : x.toNat < y.toNat <;> by_cases hyz : y.toNat < z.toNat
        · rw [if_pos (Nat.lt_trans hxy hyz)]
        · rw [if_neg hyz] at hbc
          by_cases hzy : z.toNat < y.toNat
          · rw [if_pos hzy] at hbc
            exact absurd hbc (by simp)
          · rw [if_pos (show x.toNat < z.toNat by omega)]
        · rw [if_neg hxy] at hab
          by_cases hyx : y.toNat < x.toNat
          · rw [if_pos hyx] at hab
            exact absurd hab (by simp)
          · rw [if_pos (show x.toNat < z.toNat by omega)]
        · rw [if_neg hxy] at hab
          rw [if_neg hyz] at hbc
          by_cases hyx : y.toNat < x.toNat
          · rw [if_pos hyx] at hab
            exact absurd hab (by simp)
          · by_cases hzy : z.toNat < y.toNat
            · rw [if_pos hzy] at hbc
              exact absurd hbc (by simp)
            · rw [if_neg hyx] at hab
              rw [if_neg hzy] at hbc
              rw [if_neg (show ¬ x.toNat < z.toNat by omega)]
              rw [if_neg (show ¬ z.toNat < x.toNat by omega)]
              exact ih ys zs hab hbc

theorem charListLt_conn : ∀ a b : List Char,
    charListLt a b = false → charListLt b a = false → a = b := by
  intro a
  induction a with
  | nil =>
    intro b hab _
    cases b with
    | nil => rfl
    | cons y ys => simp [charListLt] at hab
  | cons x xs ih =>
    intro b hab hba
    cases b with
    | nil => simp [charListLt] at hba
    | cons y ys =>
      simp only [charListLt] at hab hba
      by_cases hxy : x.toNat < y.toNat
      · rw [if_pos hxy] at hab
        exact absurd hab (by simp)
      · by_cases hyx : y.toNat < x.toNat
        · rw [if_pos hyx] at hba
          exact absurd hba (by simp)
        · rw [if_neg hxy, if_neg hyx] at hab
          rw [if_neg hyx, if_neg hxy] at hba
          have hx : x = y := Char.eq_of_val_eq (UInt32.ext
            (Nat.le_antisymm (Nat.le_of_not_lt hyx) (Nat.le_of_not_lt hxy)))
          rw [hx, ih ys hab hba]

theorem strLtB_trans (a b c : String) (h1 : strLtB a b = true) (h2 : strLtB b c = true) :
    strLtB a c = true :=
  charListLt_trans a.data b.data c.data h1 h2

theorem strLtB_conn (a b : String) (h1 : strLtB a b = false) (h2 : strLtB b a = false) :
    a = b :=
  String.ext (charListLt_conn a.data b.data h1 h2)


theorem charListLt_irrefl : ∀ a : List Char, charListLt a a = false := by
  intro a
  induction a with
  | nil => rfl
  | cons x xs ih => simp [charListLt, ih]

theorem strLtB_irrefl (a : String) : strLtB a a = false := charListLt_irrefl a.data

theorem lexLe_trans {α β : Type} {lt : α → α → Bool} {le : β → β → Bool}
    (hltT : ∀ a b c, lt a b = true → lt b c = true → lt a c = true)
    (hconn : ∀ a b, lt a b = false → lt b a = false → a = b)
    (hirr : ∀ a, lt a a = false)
    (hleT : ∀ a b c, le a b = true → le b c = true → le a c = true) :
    ∀ x y z : α × β, lexLe lt le x y = true → lexLe lt le y z = true →
      lexLe lt le x z = true := by
  intro x y z hxy hyz
  simp only [lexLe] at hxy hyz ⊢
  by_cases h1 : lt x.1 y.1 = true <;> by_cases h2 : lt y.1 z.1 = true
  · simp [hltT _ _ _ h1 h2]
  · by_cases h3 : lt z.1 y.1 = true
    · simp [h2, h3] at hyz
    · have e : y.1 = z.1 := hconn _ _ (Bool.eq_false_iff.mpr h2) (Bool.eq_false_iff.mpr h3)
      rw [← e]
      simp [h1]
  · by_cases h3 : lt y.1 x.1 = true
    · simp [h1, h3] at hxy
    · have e : x.1 = y.1 := hconn _ _ (Bool.eq_false_iff.mpr h1) (Bool.eq_false_iff.mpr h3)
      rw [e]
      simp [h2]
  · by_cases h3 : lt y.1 x.1 = true
    · simp [h1, h3] at hxy
    · by_cases h4 : lt z.1 y.1 = true
      · simp [h2, h4] at hyz
      · have e1 : x.1 = y.1 := hconn _ _ (Bool.eq_false_iff.mpr h1) (Bool.eq_false_iff.mpr h3)
        have e2 : y.1 = z.1 := hconn _ _ (Bool.eq_false_iff.mpr h2) (Bool.eq_false_iff.mpr h4)
        simp [h1, h3, h2, h4] at hxy hyz
        rw [e1, e2, hirr z.1]
        simp [hleT _ _ _ hxy hyz]

theorem lexLe_total {α β : Type} {lt : α → α → Bool} {le : β → β → Bool}
    (hleTot : ∀ a b, (le a b || le b a) = true) :
    ∀ x y : α × β, (lexLe lt le x y || lexLe lt le y x) = true := by
  intro x y
  simp only [lexLe]
  by_cases h1 : lt x.1 y.1 = true <;> by_cases h2 : lt y.1 x.1 = true <;>
    simp [h1, h2, hleTot]

theorem intLeB_trans (a b c : Int) (h1 : intLeB a b = true) (h2 : intLeB b c = true) :
    intLeB a c = true := by
  simp only [intLeB, decide_eq_true_eq] at h1 h2 ⊢
  exact Int.le_trans h1 h2

theorem intLeB_total (a b : Int) : (intLeB a b || intLeB b a) = true := by
  simp only [intLeB]
  rcases Int.le_total a b with h | h <;> simp [h]

theorem keyLeB_trans (x y z : String × String × String × Int)
    (h1 : keyLeB x y = true) (h2 : keyLeB y z = true) : keyLeB x z = true := by
  refine lexLe_trans strLtB_trans strLtB_conn strLtB_irrefl ?_ x y z h1 h2
  intro a b c
  refine lexLe_trans strLtB_trans strLtB_conn strLtB_irrefl ?_ a b c
  intro a b c
  exact lexLe_trans strLtB_trans strLtB_conn strLtB_irrefl intLeB_trans a b c

theorem keyLeB_total (x y : String × String × String × Int) :
    (keyLeB x y || keyLeB y x) = true := by
  refine lexLe_total ?_ x y
  intro a b
  refine lexLe_total ?_ a b
  intro a b
  exact lexLe_total intLeB_total a b

theorem entryLeB_trans (a b c : Entry) (h1 : entryLeB a b = true) (h2 : entryLeB b c = true) :
    entryLeB a c = true :=
  keyLeB_trans (sortKey a) (sortKey b) (sortKey c) h1 h2

theorem entryLeB_total (a b : Entry) : (entryLeB a b || entryLeB b a) = true :=
  keyLeB_total (sortKey a) (sortKey b)

theorem insertLe_mem (le : Entry → Entry → Bool) (x z : Entry) :
    ∀ l : List Entry, z ∈ insertLe le x l → z = x ∨ z ∈ l := by
  intro l
  induction l with
  | nil => simp [insertLe]
  | cons y ys ih =>
    simp only [insertLe]
    split
    · intro hz
      rcases List.mem_cons.mp hz with hz | hz
      · exact Or.inr (List.mem_cons.mpr (Or.inl hz))
      · rcases ih hz with hz | hz
        · exact Or.inl hz
        · exact Or.inr (List.mem_cons.mpr (Or.inr hz))
    · intro hz
      rcases List.mem_cons.mp hz with hz | hz
      · exact Or.inl hz
      · exact Or.inr hz

theorem insertLe_pairwise (x : Entry) :
    ∀ l : List Entry, l.Pairwise (fun a b => entryLeB a b = true) →
      (insertLe entryLeB x l).Pairwise (fun a b => entryLeB a b = true) := by
  intro l
  induction l with
  | nil => simp [insertLe]
  | cons y ys ih =>
    intro hp
    rcases List.pairwise_cons.mp hp with ⟨hy, hys⟩
    simp only [insertLe]
    split
    · rename_i hle
      refine List.pairwise_cons.mpr ⟨?_, ih hys⟩
      intro z hz
      rcases insertLe_mem entryLeB x z ys hz with rfl | hz
      · exact hle
      · exact hy z hz
    · rename_i hle
      refine List.pairwise_cons.mpr ⟨?_, hp⟩
      intro z hz
      have hxy : entryLeB x y = true := by
        have := entryLeB_total y x
        rcases Bool.or_eq_true_iff.mp this with h | h
        · exact absurd h hle
        · exact h
      rcases List.mem_cons.mp hz with rfl | hz
      · exact hxy
      · exact entryLeB_trans x y z hxy (hy z hz)

theorem foldl_insertLe_pairwise :
    ∀ (es acc : List Entry), acc.Pairwise (fun a b => entryLeB a b = true) →
      (es.foldl (fun acc x => insertLe entryLeB x acc) acc).Pairwise
        (fun a b => entryLeB a b = true) := by
  intro es
  induction es with
  | nil => intro acc h; simpa using h
  | cons e es ih =>
    intro acc h
    simpa using ih (insertLe entryLeB e acc) (insertLe_pairwise e acc h)

/-- The assembled sort of either quartile parser is pairwise ordered by the
canonical key. -/
theorem sortEntries_pairwise (l : List Entry) :
    (sortEntries l).Pairwise (fun a b => entryLeB a b = true) :=
  foldl_insertLe_pairwise l [] List.Pairwise.nil

/- ## Inversion lemmas for the assemblies -/

theorem parseQuartilePages_ok {fmt : String} {pages : List (List String)} {version : Nat}
    {out : List Entry} (h : parseQuartilePages fmt pages version = .ok out) :
    ∃ r, out = sortEntries r := by
  unfold parseQuartilePages at h
  split at h
  · exact absurd h (by simp)
  · split at h
    · exact absurd h (by simp)
    · exact ⟨_, (Except.ok.inj h).symm⟩

theorem quartileFold_ok_iff (step : List String → Except PyErr (List Entry)) :
    ∀ (pages : List (List String)) (acc : List Entry),
      (∃ out, quartileFold step pages acc = .ok out) ↔
        ∀ p ∈ pages, ∃ es, step p = .ok es := by
  intro pages
  induction pages with
  | nil => intro acc; simp [quartileFold]
  | cons page rest ih =>
    intro acc
    simp only [quartileFold]
    cases h : step page with
    | error e => simp [h]
    | ok js => simp [h, List.forall_mem_cons, ih (acc ++ js)]

/- ## The claims -/

/-- C3: every result list of the two quartile parsers is pairwise ordered:
whenever entry a precedes entry b, the key (index, category,
quartile-or-Q9, position) of a is lexicographically at most that of b. -/
theorem quartile_results_sorted :
    (∀ pages version out,
        parse_uefiscdi_journal_impact_factor_quartile pages version = .ok out →
        out.Pairwise (fun a b => entryLeB a b = true)) ∧
    (∀ pages version out,
        parse_uefiscdi_article_influence_score_quartile pages version = .ok out →
        out.Pairwise (fun a b => entryLeB a b = true)) := by
  constructor <;>
  · intro pages version out h
    obtain ⟨r, hr⟩ := parseQuartilePages_ok h
    rw [hr]
    exact sortEntries_pairwise r

set_option maxRecDepth 100000 in
theorem quartile_results_sorted_witness :
    ([⟨some "Computer Science", some "SCIE", some "Journal Of Testing", some "1234-5678",
       none, some "Q2", some 7, none⟩,
      ⟨some "Biology", some "SSCI", some "Journal Alpha", some "1111-2222",
       none, some "Q1", some 3, none⟩] : List Entry).Pairwise
      (fun a b => entryLeB a b = true) :=
  quartile_results_sorted.1
    [["Biology - SSCI Journal Alpha 1111-2222 N/A Q1 3",
      "Computer Science - SCIE Journal Of Testing 1234-5678 N/A Q2 7", "f"]] 2023
    [⟨some "Computer Science", some "SCIE", some "Journal Of Testing", some "1234-5678",
      none, some "Q2", some 7, none⟩,
     ⟨some "Biology", some "SSCI", some "Journal Alpha", some "1111-2222",
      none, some "Q1", some 3, none⟩] rfl

set_option maxRecDepth 100000 in
/-- C2: scenario B of the spec: the page whose reconstructed row text is the
Computer Science SCIE test line decodes to exactly one Entry with the stated
fields (the final raw line of a page never enters the row buffer, so the
page carries one further line). -/
theorem scenario_b_single_row :
    parse_2023_quartile_zone_entries
      ["Computer Science - SCIE Journal Of Testing 1234-5678 N/A Q2 7", "footer"] "jif" =
    .ok [⟨some "Computer Science", some "SCIE", some "Journal Of Testing",
          some "1234-5678", none, some "Q2", some 7, none⟩] := rfl

set_option maxRecDepth 100000 in
/-- C1 as stated is refuted: a two-page document whose first page decodes a
row still hard-fails with the RuntimeError, because its second page decodes
zero rows - the failure is not reserved to documents with zero rows overall. -/
theorem c1_counterexample :
    parse_2023_quartile_zone_entries
        ["Computer Science - SCIE Journal Of Testing 1234-5678 N/A Q2 7", "f"] "jif" =
      .ok [⟨some "Computer Science", some "SCIE", some "Journal Of Testing",
            some "1234-5678", none, some "Q2", some 7, none⟩] ∧
    parse_uefiscdi_journal_impact_factor_quartile
        [["Computer Science - SCIE Journal Of Testing 1234-5678 N/A Q2 7", "f"],
         ["alpha", "beta"]] 2023 =
      .error (.runtimeError "No journals found on page") :=
  ⟨rfl, rfl⟩

/-- C1 amended: the no-journals RuntimeError is per page, not per document:
each per-page parser raises it exactly when that page decodes zero rows
after the header offset, and a document parse succeeds exactly when every
one of its pages decodes at least one row. -/
theorem no_journals_error_is_per_page :
    (∀ lines fmt, fmt = "ais" ∨ fmt = "jif" →
      (parse_2023_quartile_zone_entries lines fmt =
          .error (.runtimeError "No journals found on page") ↔
        decoded2023 lines = [])) ∧
    (∀ lines fmt, fmt = "ais" ∨ fmt = "jif" →
      (parse_2024_quartile_zone_entries lines fmt =
          .error (.runtimeError "No journals found on page") ↔
        decoded2024 (if fmt = "jif" then 5 else 6) lines = [])) ∧
    (∀ fmt pages version, fmt = "ais" ∨ fmt = "jif" →
      SUPPORTED_VERSIONS.contains version = true →
      ((∃ out, parseQuartilePages fmt pages version = .ok out) ↔
        ∀ page ∈ pages, ∃ es, pageParse version fmt page = .ok es)) := by
  refine ⟨?_, ?_, ?_⟩
  · intro lines fmt hf
    have hc : ¬ (fmt ≠ "ais" ∧ fmt ≠ "jif") := by
      rcases hf with rfl | rfl <;> simp
    simp only [parse_2023_quartile_zone_entries, if_neg hc]
    split
    · rename_i h
      exact ⟨fun _ => List.isEmpty_iff.mp h, fun _ => rfl⟩
    · rename_i h
      constructor
      · intro hx
        exact absurd hx (by simp)
      · intro hx
        exact absurd (List.isEmpty_iff.mpr hx) (by simp [h])
  · intro lines fmt hf
    have hc : ¬ (fmt ≠ "ais" ∧ fmt ≠ "jif") := by
      rcases hf with rfl | rfl <;> simp
    simp only [parse_2024_quartile_zone_entries, if_neg hc]
    generalize (if fmt = "jif" then (5 : Nat) else 6) = q
    split
    · rename_i h
      exact ⟨fun _ => List.isEmpty_iff.mp h, fun _ => rfl⟩
    · rename_i h
      constructor
      · intro hx
        exact absurd hx (by simp)
      · intro hx
        exact absurd (List.isEmpty_iff.mpr hx) (by simp [h])
  · intro fmt pages version _hf hv
    have hc : ¬ ((SUPPORTED_VERSIONS.contains version) = false) := by rw [hv]; simp
    simp only [parseQuartilePages, if_neg hc]
    rw [← quartileFold_ok_iff (pageParse version fmt) pages []]
    cases hq : quartileFold (pageParse version fmt) pages [] with
    | error e => simp [hq]
    | ok r => simp [hq]

set_option maxRecDepth 100000 in
theorem no_journals_error_is_per_page_witness :
    (parse_2023_quartile_zone_entries ["alpha", "beta"] "jif" =
        .error (.runtimeError "No journals found on page")) ∧
    (parse_2024_quartile_zone_entries ["alpha", "beta"] "jif" =
        .error (.runtimeError "No journals found on page")) ∧
    (∃ out, parseQuartilePages "jif"
        [["Computer Science - SCIE Journal Of Testing 1234-5678 N/A Q2 7", "f"]] 2023 =
      .ok out) :=
  ⟨(no_journals_error_is_per_page.1 ["alpha", "beta"] "jif" (Or.inr rfl)).mpr rfl,
   (no_journals_error_is_per_page.2.1 ["alpha", "beta"] "jif" (Or.inr rfl)).mpr rfl,
   (no_journals_error_is_per_page.2.2 "jif"
      [["Computer Science - SCIE Journal Of Testing 1234-5678 N/A Q2 7", "f"]] 2023
      (Or.inr rfl) rfl).mpr (by
        intro page hp
        rw [List.mem_singleton] at hp
        subst hp
        exact ⟨[⟨some "Computer Science", some "SCIE", some "Journal Of Testing",
                 some "1234-5678", none, some "Q2", some 7, none⟩], rfl⟩)⟩

/- ## C4: the two data families are mutually exclusive per Entry -/

theorem entriesLoop_mem (re : RE) (dec : List String → Entry) :
    ∀ (ls : List String) (row : String) (acc : List Entry) (e : Entry),
      e ∈ entriesLoop re dec ls row acc → e ∈ acc ∨ ∃ gs, e = dec gs := by
  intro ls
  induction ls with
  | nil => intro row acc e he; exact Or.inl he
  | cons line rest ih =>
    intro row acc e he
    simp only [entriesLoop] at he
    split at he
    · exact ih _ _ e he
    · rcases ih _ _ e he with h | h
      · rcases List.mem_append.mp h with h | h
        · exact Or.inl h
        · rcases List.mem_map.mp h with ⟨m, _, hm⟩
          exact Or.inr ⟨_, hm.symm⟩
      · exact Or.inr h

theorem parse2023_ok {lines : List String} {fmt : String} {es : List Entry}
    (h : parse_2023_quartile_zone_entries lines fmt = .ok es) : es = decoded2023 lines := by
  simp only [parse_2023_quartile_zone_entries] at h
  split at h
  · exact absurd h (by simp)
  · split at h
    · exact absurd h (by simp)
    · exact (Except.ok.inj h).symm

theorem parse2024_ok {lines : List String} {fmt : String} {es : List Entry}
    (h : parse_2024_quartile_zone_entries lines fmt = .ok es) :
    es = decoded2024 (if fmt = "jif" then 5 else 6) lines := by
  simp only [parse_2024_quartile_zone_entries] at h
  split at h
  · exact absurd h (by simp)
  · split at h
    · rename_i hf
      rw [if_pos hf]
      split at h
      · exact absurd h (by simp)
      · exact (Except.ok.inj h).symm
    · rename_i hf
      rw [if_neg hf]
      split at h
      · exact absurd h (by simp)
      · exact (Except.ok.inj h).symm

theorem scoreLoop_position (getter : List (Option String) → Except PyErr SRow) :
    ∀ (rows : List (List (Option String))) (es : List Entry),
      scoreLoop getter rows = .ok es → ∀ e ∈ es, e.position = none := by
  intro rows
  induction rows with
  | nil =>
    intro es h e he
    simp only [scoreLoop] at h
    obtain rfl := Except.ok.inj h
    simp at he
  | cons row rest ih =>
    intro es h e he
    simp only [scoreLoop] at h
    split at h
    · exact absurd h (by simp)
    · split at h
      · obtain rfl := Except.ok.inj h
        simp at he
      · split at h
        · exact absurd h (by simp)
        · rename_i r scoreStr restEntries hrest
          obtain rfl := Except.ok.inj h
          rcases List.mem_cons.mp he with rfl | he2
          · rfl
          · exact ih restEntries hrest e he2

/-- C4: the two data families are mutually exclusive per Entry: every entry
of the PDF quartile grammars carries a position and no score, and every
entry of the spreadsheet score normalizer carries no position. -/
theorem position_score_exclusive :
    (∀ lines fmt es, parse_2023_quartile_zone_entries lines fmt = .ok es →
      ∀ e ∈ es, e.score = none ∧ e.position ≠ none) ∧
    (∀ lines fmt es, parse_2024_quartile_zone_entries lines fmt = .ok es →
      ∀ e ∈ es, e.score = none ∧ e.position ≠ none) ∧
    (∀ getter rows es, _parse_score_entries getter rows = .ok es →
      ∀ e ∈ es, e.position = none) := by
  refine ⟨?_, ?_, ?_⟩
  · intro lines fmt es h e he
    rw [parse2023_ok h] at he
    rcases entriesLoop_mem _ _ _ _ _ _ he with h2 | ⟨gs, rfl⟩
    · simp at h2
    · exact ⟨rfl, by simp [row2entry2023]⟩
  · intro lines fmt es h e he
    rw [parse2024_ok h] at he
    rcases entriesLoop_mem _ _ _ _ _ _ he with h2 | ⟨gs, rfl⟩
    · simp at h2
    · exact ⟨rfl, by simp [row2entry2024]⟩
  · intro getter rows es h e he
    cases rows with
    | nil => simp [_parse_score_entries] at h
    | cons hdr rest =>
      exact scoreLoop_position getter rest es h e he

set_option maxRecDepth 100000 in
theorem position_score_exclusive_witness :
    ((⟨some "Computer Science", some "SCIE", some "Journal Of Testing", some "1234-5678",
       none, some "Q2", some 7, none⟩ : Entry).score = none ∧
     (⟨some "Computer Science", some "SCIE", some "Journal Of Testing", some "1234-5678",
       none, some "Q2", some 7, none⟩ : Entry).position ≠ none) ∧
    ((⟨some "Computer Science", some "SCIE", some "Journal Of Testing", some "1234-5678",
       none, some "Q2", some (-1), none⟩ : Entry).score = none ∧
     (⟨some "Computer Science", some "SCIE", some "Journal Of Testing", some "1234-5678",
       none, some "Q2", some (-1), none⟩ : Entry).position ≠ none) ∧
    (⟨none, none, some "Journal A", some "1234-5678", some "8765-4321",
      none, none, some "3.14"⟩ : Entry).position = none :=
  ⟨position_score_exclusive.1
      ["Computer Science - SCIE Journal Of Testing 1234-5678 N/A Q2 7", "f"] "jif"
      [⟨some "Computer Science", some "SCIE", some "Journal Of Testing", some "1234-5678",
        none, some "Q2", some 7, none⟩] rfl _ (by simp),
   position_score_exclusive.2.1
      ["Journal Of Testing 1234-5678 N/A Computer Science SCIE Q2 Q3", "f"] "jif"
      [⟨some "Computer Science", some "SCIE", some "Journal Of Testing", some "1234-5678",
        none, some "Q2", some (-1), none⟩] rfl _ (by simp),
   position_score_exclusive.2.2 _normalize_rif_ris_row
      [[none, none, none, none],
       [some "Journal A", some "1234-5678", some "8765-4321", some "3.14"]]
      [⟨none, none, some "Journal A", some "1234-5678", some "8765-4321",
        none, none, some "3.14"⟩] rfl _ (by simp)⟩

/- ## C5: ISSN normalization checks only the length -/

/-- C5 as stated is refuted: the nine-character token 123456789 does not
have the NNNN-NNNN shape, yet the spreadsheet normalizer keeps it instead
of normalizing it to an absent field, because the code checks only the
length of the cell. -/
theorem c5_counterexample :
    _parse_score_entries _normalize_rif_ris_row
        [[none, none, none, none],
         [some "J", some "123456789", some "8765-4321", some "1.0"]] =
      .ok [⟨none, none, some "J", some "123456789", some "8765-4321",
            none, none, some "1.0"⟩] ∧
    issnShapeSpec "123456789" = false :=
  ⟨rfl, rfl⟩

theorem scoreLoop_rifris_total :
    ∀ rows : List (List (Option String)), (∀ r ∈ rows, r.length = 4) →
      ∃ es, scoreLoop _normalize_rif_ris_row rows = .ok es := by
  intro rows
  induction rows with
  | nil => exact fun _ => ⟨[], rfl⟩
  | cons r rest ih =>
    intro h
    have hr : r.length = 4 := h r (by simp)
    obtain ⟨es, hes⟩ := ih (fun q hq => h q (by simp [hq]))
    rcases r with _ | ⟨a, _ | ⟨b, _ | ⟨c, _ | ⟨d, _ | ⟨x, tl⟩⟩⟩⟩⟩ <;> simp at hr
    cases hd : d with
    | none => exact ⟨[], by simp [scoreLoop, _normalize_rif_ris_row, hd]⟩
    | some scoreStr =>
      refine ⟨scoreEntry ⟨a, b, c, none, none, d, none⟩ scoreStr :: es, ?_⟩
      simp [scoreLoop, _normalize_rif_ris_row, hd, hes]

/-- C5 amended: the spreadsheet ISSN normalization validates only the
length: a cell whose stripped uppercased str() form is not exactly nine
characters long becomes absent, a nine-character form is kept even when it
does not have the NNNN-NNNN shape, and the normalization never raises (on
well-formed four-cell rows the whole rif and ris parse is total). -/
theorem issn_normalization_length_only :
    (∀ getter rows es, _parse_score_entries getter rows = .ok es →
      ∀ e ∈ es,
        (e.issn = none ∨ ∃ t, e.issn = some t ∧ t.length = 9) ∧
        (e.eissn = none ∨ ∃ t, e.eissn = some t ∧ t.length = 9)) ∧
    (∀ (hdr : List (Option String)) rows, (∀ r ∈ rows, r.length = 4) →
      ∃ es, _parse_score_entries _normalize_rif_ris_row (hdr :: rows) = .ok es) := by
  constructor
  · intro getter rows es h e he
    have hmem : ∀ (rows2 : List (List (Option String))) (es2 : List Entry),
        scoreLoop getter rows2 = .ok es2 → ∀ e2 ∈ es2, ∃ r s, e2 = scoreEntry r s := by
      intro rows2
      induction rows2 with
      | nil =>
        intro es2 h2 e2 he2
        simp only [scoreLoop] at h2
        obtain rfl := Except.ok.inj h2
        simp at he2
      | cons row rest ih =>
        intro es2 h2 e2 he2
        simp only [scoreLoop] at h2
        split at h2
        · exact absurd h2 (by simp)
        · split at h2
          · obtain rfl := Except.ok.inj h2
            simp at he2
          · split at h2
            · exact absurd h2 (by simp)
            · rename_i restEntries hrest
              obtain rfl := Except.ok.inj h2
              rcases List.mem_cons.mp he2 with rfl | he3
              · exact ⟨_, _, rfl⟩
              · exact ih restEntries hrest e2 he3
    cases rows with
    | nil => simp [_parse_score_entries] at h
    | cons hdr rest =>
      obtain ⟨r, sstr, rfl⟩ := hmem rest es h e he
      constructor
      · by_cases hl : (pyUpper (pyStrip (pyStrOfCell r.issn))).length = 9
        · exact Or.inr ⟨_, by simp [scoreEntry, hl], hl⟩
        · exact Or.inl (by simp [scoreEntry, hl])
      · by_cases hl : (pyUpper (pyStrip (pyStrOfCell r.eissn))).length = 9
        · exact Or.inr ⟨_, by simp [scoreEntry, hl], hl⟩
        · exact Or.inl (by simp [scoreEntry, hl])
  · intro hdr rows h
    obtain ⟨es, hes⟩ := scoreLoop_rifris_total rows h
    exact ⟨es, by simpa [_parse_score_entries] using hes⟩

theorem issn_normalization_length_only_witness :
    (((⟨none, none, some "J", some "123456789", some "8765-4321",
        none, none, some "1.0"⟩ : Entry).issn = none ∨
      ∃ t, (⟨none, none, some "J", some "123456789", some "8765-4321",
            none, none, some "1.0"⟩ : Entry).issn = some t ∧ t.length = 9) ∧
     ((⟨none, none, some "J", some "123456789", some "8765-4321",
        none, none, some "1.0"⟩ : Entry).eissn = none ∨
      ∃ t, (⟨none, none, some "J", some "123456789", some "8765-4321",
            none, none, some "1.0"⟩ : Entry).eissn = some t ∧ t.length = 9)) ∧
    (∃ es, _parse_score_entries _normalize_rif_ris_row
        [[none, none, none, none],
         [some "J", some "12", some "8765-4321", some "1.0"]] = .ok es) :=
  ⟨issn_normalization_length_only.1 _normalize_rif_ris_row
      [[none, none, none, none],
       [some "J", some "123456789", some "8765-4321", some "1.0"]]
      [⟨none, none, some "J", some "123456789", some "8765-4321",
        none, none, some "1.0"⟩] rfl _ (by simp),
   issn_normalization_length_only.2 [none, none, none, none]
      [[some "J", some "12", some "8765-4321", some "1.0"]] (by simp)⟩

/- ## C6: the empty score cell is the end-of-data sentinel -/

theorem scoreLoop_stop (getter : List (Option String) → Except PyErr SRow) :
    ∀ (pre : List (List (Option String))) (row : List (Option String)) post,
      (∀ p ∈ pre, ∃ t, getter p = .ok t ∧ t.score ≠ none) →
      (∃ t, getter row = .ok t ∧ t.score = none) →
      ∃ es, scoreLoop getter (pre ++ row :: post) = .ok es ∧
        es.length = pre.length ∧ scoreLoop getter (pre ++ [row]) = .ok es := by
  intro pre
  induction pre with
  | nil =>
    intro row post hpre hrow
    obtain ⟨t, hg, hs⟩ := hrow
    exact ⟨[], by simp [scoreLoop, hg, hs], rfl, by simp [scoreLoop, hg, hs]⟩
  | cons p pre ih =>
    intro row post hpre hrow
    obtain ⟨tp, hgp, hsp⟩ := hpre p (by simp)
    obtain ⟨sstr, hss⟩ := Option.ne_none_iff_exists'.mp hsp
    obtain ⟨es, h1, hlen, h2⟩ := ih row post (fun q hq => hpre q (by simp [hq])) hrow
    refine ⟨scoreEntry tp sstr :: es, ?_, by simp [hlen], ?_⟩
    · simp [scoreLoop, hgp, hss, h1]
    · simp [scoreLoop, hgp, hss, h2]

/-- C6: _parse_score_entries stops at the first row whose score cell is
empty: the result has exactly one Entry per row before the sentinel row,
and the rows after the sentinel contribute nothing (dropping them leaves
the result unchanged). -/
theorem score_rows_stop_at_empty_score :
    ∀ (getter : List (Option String) → Except PyErr SRow)
      (hdr : List (Option String)) pre row post,
      (∀ p ∈ pre, ∃ t, getter p = .ok t ∧ t.score ≠ none) →
      (∃ t, getter row = .ok t ∧ t.score = none) →
      ∃ es, _parse_score_entries getter (hdr :: (pre ++ row :: post)) = .ok es ∧
        es.length = pre.length ∧
        _parse_score_entries getter (hdr :: (pre ++ [row])) = .ok es := by
  intro getter hdr pre row post h1 h2
  simpa only [_parse_score_entries] using scoreLoop_stop getter pre row post h1 h2

theorem score_rows_stop_at_empty_score_witness :
    ∃ es, _parse_score_entries _normalize_rif_ris_row
        [[none, none, none, none],
         [some "Journal A", some "1234-5678", some "8765-4321", some "3.14"],
         [some "End", none, none, none],
         [some "Journal B", some "1111-2222", some "3333-4444", some "2.5"]] = .ok es ∧
      es.length = 1 ∧
      _parse_score_entries _normalize_rif_ris_row
        [[none, none, none, none],
         [some "Journal A", some "1234-5678", some "8765-4321", some "3.14"],
         [some "End", none, none, none]] = .ok es :=
  score_rows_stop_at_empty_score _normalize_rif_ris_row [none, none, none, none]
    [[some "Journal A", some "1234-5678", some "8765-4321", some "3.14"]]
    [some "End", none, none, none]
    [[some "Journal B", some "1111-2222", some "3333-4444", some "2.5"]]
    (by
      intro p hp
      rw [List.mem_singleton] at hp
      subst hp
      exact ⟨⟨some "Journal A", some "1234-5678", some "8765-4321",
              none, none, some "3.14", none⟩, rfl, by simp⟩)
    ⟨⟨some "End", none, none, none, none, none, none⟩, rfl, rfl⟩

/- ## C7: the header-skip boundary -/

theorem locate2023Aux_block : ∀ (lines : List String) (N i : Nat),
    N < lines.length →
    (∀ j, j < N → matchesHeader2023 (lines.getD j "") = true) →
    matchesHeader2023 (lines.getD N "") = false →
    locate2023Aux lines i true = i + N := by
  intro lines
  induction lines with
  | nil => intro N i h; simp at h
  | cons l rest ih =>
    intro N i hN hall hN2
    cases N with
    | zero =>
      have h0 : matchesHeader2023 l = false := by simpa using hN2
      simp [locate2023Aux, h0]
    | succ K =>
      have h0 : matchesHeader2023 l = true := by simpa using hall 0 (Nat.succ_pos K)
      have hstep : locate2023Aux (l :: rest) i true = locate2023Aux rest (i + 1) true := by
        simp [locate2023Aux, h0]
      rw [hstep, ih K (i + 1) (by simpa using hN)
        (fun j hj => by simpa using hall (j + 1) (Nat.succ_lt_succ hj))
        (by simpa using hN2)]
      omega

theorem locate2023Aux_none : ∀ (lines : List String) (i : Nat),
    (∀ l ∈ lines, matchesHeader2023 l = false) → locate2023Aux lines i false = 0 := by
  intro lines
  induction lines with
  | nil => intro i _; rfl
  | cons l rest ih =>
    intro i h
    have h0 : matchesHeader2023 l = false := h l (by simp)
    have hstep : locate2023Aux (l :: rest) i false = locate2023Aux rest (i + 1) false := by
      simp [locate2023Aux, h0]
    rw [hstep, ih (i + 1) (fun q hq => h q (by simp [hq]))]

theorem locate2024_first : ∀ (lines : List String) (i k : Nat),
    i < lines.length →
    containsAllHeader2024 (lines.getD i "") = true →
    (∀ j, j < i → containsAllHeader2024 (lines.getD j "") = false) →
    locate2024 lines k = k + i + 1 := by
  intro lines
  induction lines with
  | nil => intro i k h; simp at h
  | cons l rest ih =>
    intro i k hi hall hnone
    cases i with
    | zero =>
      have h0 : containsAllHeader2024 l = true := by simpa using hall
      simp [locate2024, h0]
    | succ K =>
      have h0 : containsAllHeader2024 l = false := by simpa using hnone 0 (Nat.succ_pos K)
      have hstep : locate2024 (l :: rest) k = locate2024 rest (k + 1) := by
        simp [locate2024, h0]
      rw [hstep, ih K (k + 1) (by simpa using hi) (by simpa using hall)
        (fun j hj => by simpa using hnone (j + 1) (Nat.succ_lt_succ hj))]
      omega

theorem locate2024_none : ∀ (lines : List String) (k : Nat),
    (∀ l ∈ lines, containsAllHeader2024 l = false) → locate2024 lines k = 0 := by
  intro lines
  induction lines with
  | nil => intro k _; rfl
  | cons l rest ih =>
    intro k h
    have h0 : containsAllHeader2024 l = false := h l (by simp)
    have hstep : locate2024 (l :: rest) k = locate2024 rest (k + 1) := by
      simp [locate2024, h0]
    rw [hstep, ih (k + 1) (fun q hq => h q (by simp [hq]))]

/-- C7 as stated is refuted on the 2024 header scan at a concrete page: the
first line matches a required header fragment and the second line matches
none, so the claim demands offset 1, but the locator requires every header
name on a single line and returns 0. -/
theorem c7_counterexample :
    matchesHeader2024 (["ISSN", "zzz", "end"].getD 0 "") = true ∧
    matchesHeader2024 (["ISSN", "zzz", "end"].getD 1 "") = false ∧
    locate2024 ["ISSN", "zzz", "end"] 0 = 0 ∧ (0 : Nat) ≠ 1 :=
  ⟨rfl, rfl, rfl, by decide⟩

/-- C7 amended: the boundary claim holds for the 2023 header scan (first N
lines each matching a header fragment, line N matching none, gives offset
N); the 2024 scan instead returns one past the first line that contains
every header name; and both default to offset 0 when no header is found. -/
theorem header_locator_boundary :
    (∀ lines N, 0 < N → N < lines.length →
      (∀ j, j < N → matchesHeader2023 (lines.getD j "") = true) →
      matchesHeader2023 (lines.getD N "") = false →
      locate2023 lines = N) ∧
    (∀ lines i, i < lines.length →
      containsAllHeader2024 (lines.getD i "") = true →
      (∀ j, j < i → containsAllHeader2024 (lines.getD j "") = false) →
      locate2024 lines 0 = i + 1) ∧
    (∀ lines, (∀ l ∈ lines, matchesHeader2023 l = false) → locate2023 lines = 0) ∧
    (∀ lines, (∀ l ∈ lines, containsAllHeader2024 l = false) → locate2024 lines 0 = 0) := by
  refine ⟨?_, ?_, ?_, ?_⟩
  · intro lines N hN hlen hall hN2
    cases lines with
    | nil => simp at hlen
    | cons l rest =>
      cases N with
      | zero => omega
      | succ K =>
        have h0 : matchesHeader2023 l = true := by simpa using hall 0 hN
        have hstep : locate2023 (l :: rest) = locate2023Aux rest 1 true := by
          simp [locate2023, locate2023Aux, h0]
        rw [hstep, locate2023Aux_block rest K 1 (by simpa using hlen)
          (fun j hj => by simpa using hall (j + 1) (Nat.succ_lt_succ hj))
          (by simpa using hN2)]
        omega
  · intro lines i hi hall hnone
    have := locate2024_first lines i 0 hi hall hnone
    omega
  · intro lines h
    exact locate2023Aux_none lines 0 h
  · intro lines h
    exact locate2024_none lines 0 h

set_option maxRecDepth 100000 in
theorem header_locator_boundary_witness :
    locate2023 ["Revista", "x"] = 1 ∧
    locate2024 ["Journal name ISSN eISSN Category Edition JIF Quartile AIS Quartile", "x"] 0 = 1 ∧
    locate2023 ["alpha"] = 0 ∧
    locate2024 ["alpha"] 0 = 0 :=
  ⟨header_locator_boundary.1 ["Revista", "x"] 1 (by decide) (by decide)
      (by
        intro j hj
        have hj0 : j = 0 := by omega
        subst hj0
        decide)
      (by decide),
   header_locator_boundary.2.1
      ["Journal name ISSN eISSN Category Edition JIF Quartile AIS Quartile", "x"] 0
      (by decide) (by decide) (by omega),
   header_locator_boundary.2.2.1 ["alpha"] (by
      intro l hl
      rw [List.mem_singleton] at hl
      subst hl
      decide),
   header_locator_boundary.2.2.2 ["alpha"] (by
      intro l hl
      rw [List.mem_singleton] at hl
      subst hl
      decide)⟩

/- ## C8 and C9: request validation and effect order -/

/-- C8 as stated is refuted: version 2022 is unsupported (the parsers
support only the versions of SUPPORTED_VERSIONS), yet a 2022 request does
not fail before I/O - the document is downloaded and only then the parser
raises the ValueError. -/
theorem c8_counterexample :
    SUPPORTED_VERSIONS.contains 2022 = false ∧
    (parse_uefiscdi_database_from_url "jifq" none (some 2022) (fun _ => false)
        (fun _ => some "jif2022.pdf")).effects =
      [.statLocal "https://uefiscdi.gov.ro/resource-862151-zone.2022.if.pdf",
       .download "https://uefiscdi.gov.ro/resource-862151-zone.2022.if.pdf",
       .statLocal "jif2022.pdf"] ∧
    (parse_uefiscdi_database_from_url "jifq" none (some 2022) (fun _ => false)
        (fun _ => some "jif2022.pdf")).result =
      .error (.valueError "Unknown version 2022") :=
  ⟨rfl, rfl, rfl⟩

/-- C8 amended: a request whose resolved version is not a key of the URL
table, or whose database id is not mapped, raises a ValueError with an
empty effect trace - before any network or file access; but a request whose
version is in the URL table while outside the parser-supported set (for
example 2019 to 2022) raises its ValueError only after the document has
been downloaded. -/
theorem config_rejection_before_io :
    (∀ database url0 version0 le dl,
      (UEFISCDI_DATABASE_URL.lookup (version0.getD maxUrlVersion) = none ∨
       (∃ dbs, UEFISCDI_DATABASE_URL.lookup (version0.getD maxUrlVersion) = some dbs ∧
          dbs.lookup database = none)) →
      (parse_uefiscdi_database_from_url database url0 version0 le dl).effects = [] ∧
      ∃ msg, (parse_uefiscdi_database_from_url database url0 version0 le dl).result =
        .error (.valueError msg)) ∧
    (∀ database url0 version0 le dl dbs u0 f,
      UEFISCDI_DATABASE_URL.lookup (version0.getD maxUrlVersion) = some dbs →
      dbs.lookup database = some u0 →
      SUPPORTED_VERSIONS.contains (version0.getD maxUrlVersion) = false →
      le (url0.getD u0) = false →
      dl (url0.getD u0) = some f →
      (parse_uefiscdi_database_from_url database url0 version0 le dl).result =
        .error (.valueError ("Unknown version " ++ toString (version0.getD maxUrlVersion))) ∧
      Effect.download (url0.getD u0) ∈
        (parse_uefiscdi_database_from_url database url0 version0 le dl).effects) := by
  constructor
  · intro database url0 version0 le dl h
    rcases h with h1 | ⟨dbs, h1, h2⟩
    · simp [parse_uefiscdi_database_from_url, h1]
    · simp [parse_uefiscdi_database_from_url, h1, h2]
  · intro database url0 version0 le dl dbs u0 f h1 h2 hv hle hdl
    have hle2 : ¬ (le (url0.getD u0) = true) := by simp [hle]
    have hv3 : (version0.getD maxUrlVersion) ∉ SUPPORTED_VERSIONS := by
      simpa using hv
    by_cases hdb : database = "aisq" ∨ database = "jifq" <;>
      simp [parse_uefiscdi_database_from_url, h1, h2, hle2, hdl, hdb, hv3]

theorem config_rejection_before_io_witness :
    ((parse_uefiscdi_database_from_url "jifq" none (some 2018) (fun _ => false)
        (fun _ => none)).effects = [] ∧
     ∃ msg, (parse_uefiscdi_database_from_url "jifq" none (some 2018) (fun _ => false)
        (fun _ => none)).result = .error (.valueError msg)) ∧
    ((parse_uefiscdi_database_from_url "ris" none (some 2022) (fun _ => false)
        (fun _ => some "ris2022.xlsx")).result =
      .error (.valueError ("Unknown version " ++ toString ((some (2022 : Nat)).getD maxUrlVersion))) ∧
     Effect.download ((none : Option String).getD
        "https://uefiscdi.gov.ro/resource-862102-ris.2021.xlsx") ∈
       (parse_uefiscdi_database_from_url "ris" none (some 2022) (fun _ => false)
          (fun _ => some "ris2022.xlsx")).effects) :=
  ⟨config_rejection_before_io.1 "jifq" none (some 2018) (fun _ => false) (fun _ => none)
      (Or.inl rfl),
   config_rejection_before_io.2 "ris" none (some 2022) (fun _ => false)
      (fun _ => some "ris2022.xlsx")
      [("aisq", "https://uefiscdi.gov.ro/resource-862159-zone.2022.ais.pdf"),
       ("jifq", "https://uefiscdi.gov.ro/resource-862151-zone.2022.if.pdf"),
       ("ais", "https://uefiscdi.gov.ro/resource-862108-ais.2021.xlsx"),
       ("ris", "https://uefiscdi.gov.ro/resource-862102-ris.2021.xlsx"),
       ("rif", "https://uefiscdi.gov.ro/resource-862155-rif.2021.xlsx")]
      "https://uefiscdi.gov.ro/resource-862102-ris.2021.xlsx" "ris2022.xlsx"
      rfl rfl rfl rfl rfl⟩

/-- C9: when the request URL names an existing local path, the function
raises FileNotFoundError after only the existence check, without parsing;
content parsing is reached only when the path does not exist locally and
the download succeeds. -/
theorem local_file_raises_not_parses :
    ∀ database url0 version0 le dl dbs u0,
      UEFISCDI_DATABASE_URL.lookup (version0.getD maxUrlVersion) = some dbs →
      dbs.lookup database = some u0 →
      ((le (url0.getD u0) = true →
        parse_uefiscdi_database_from_url database url0 version0 le dl =
          ⟨[.statLocal (url0.getD u0)], .error (.fileNotFoundError (url0.getD u0))⟩) ∧
       ((parse_uefiscdi_database_from_url database url0 version0 le dl).result = .ok () →
        le (url0.getD u0) = false ∧ ∃ f, dl (url0.getD u0) = some f)) := by
  intro database url0 version0 le dl dbs u0 h1 h2
  constructor
  · intro hle
    simp [parse_uefiscdi_database_from_url, h1, h2, hle]
  · intro hok
    by_cases hle : le (url0.getD u0) = true
    · simp [parse_uefiscdi_database_from_url, h1, h2, hle] at hok
    · refine ⟨by simpa using hle, ?_⟩
      cases hdl : dl (url0.getD u0) with
      | none =>
        simp [parse_uefiscdi_database_from_url, h1, h2, hle, hdl] at hok
      | some f => exact ⟨f, rfl⟩

theorem local_file_raises_not_parses_witness :
    parse_uefiscdi_database_from_url "jifq" none (some 2023) (fun _ => true) (fun _ => none) =
      ⟨[.statLocal "https://uefiscdi.gov.ro/resource-866009-zone.iunie.2023.jif.pdf"],
       .error (.fileNotFoundError
         "https://uefiscdi.gov.ro/resource-866009-zone.iunie.2023.jif.pdf")⟩ :=
  (local_file_raises_not_parses "jifq" none (some 2023) (fun _ => true) (fun _ => none)
    [("aisq", "https://uefiscdi.gov.ro/resource-866007-zone.iunie.2023.ais.pdf"),
     ("jifq", "https://uefiscdi.gov.ro/resource-866009-zone.iunie.2023.jif.pdf"),
     ("ais", "https://uefiscdi.gov.ro/resource-863884-ais_2022.xlsx"),
     ("ris", "https://uefiscdi.gov.ro/resource-863882-ris_2022.xlsx"),
     ("rif", "https://uefiscdi.gov.ro/resource-863887-rif_2022.xlsx")]
    "https://uefiscdi.gov.ro/resource-866009-zone.iunie.2023.jif.pdf" rfl rfl).1 rfl

/- ## C10: the final raw line of a page never enters the row buffer -/

theorem sliceToLast_append (pre : List String) (a : String) (off : Nat) :
    sliceToLast (pre ++ [a]) off = pre.drop off := by
  unfold sliceToLast
  have h1 : (pre ++ [a]).length - 1 = pre.length := by simp
  rw [h1, List.take_left]

theorem sliceToLast_single (lines : List String) (off : Nat)
    (h : off + 1 = lines.length) : sliceToLast lines off = [] := by
  unfold sliceToLast
  apply List.drop_eq_nil_of_le
  rw [List.length_take]
  omega

/-- C10: both per-year grammars iterate only over lines[offset:-1], so with
the header offset held fixed the content of the final raw line cannot
change the decoded rows (it never enters the row buffer), and a page with
exactly one line after the header decodes no entries (and therefore raises
the per-page RuntimeError). -/
theorem last_line_never_buffered :
    (∀ (pre : List String) a b fmt,
      locate2023 (pre ++ [a]) = locate2023 (pre ++ [b]) →
      parse_2023_quartile_zone_entries (pre ++ [a]) fmt =
        parse_2023_quartile_zone_entries (pre ++ [b]) fmt) ∧
    (∀ (pre : List String) a b fmt,
      locate2024 (pre ++ [a]) 0 = locate2024 (pre ++ [b]) 0 →
      parse_2024_quartile_zone_entries (pre ++ [a]) fmt =
        parse_2024_quartile_zone_entries (pre ++ [b]) fmt) ∧
    (∀ lines fmt, locate2023 lines + 1 = lines.length →
      decoded2023 lines = [] ∧
      (fmt = "ais" ∨ fmt = "jif" →
        parse_2023_quartile_zone_entries lines fmt =
          .error (.runtimeError "No journals found on page"))) ∧
    (∀ lines fmt qidx, locate2024 lines 0 + 1 = lines.length →
      decoded2024 qidx lines = [] ∧
      (fmt = "ais" ∨ fmt = "jif" →
        parse_2024_quartile_zone_entries lines fmt =
          .error (.runtimeError "No journals found on page"))) := by
  refine ⟨?_, ?_, ?_, ?_⟩
  · intro pre a b fmt hoff
    have h1 : decoded2023 (pre ++ [a]) = decoded2023 (pre ++ [b]) := by
      unfold decoded2023
      rw [sliceToLast_append, sliceToLast_append, hoff]
    unfold parse_2023_quartile_zone_entries
    rw [h1]
  · intro pre a b fmt hoff
    have h1 : ∀ q, decoded2024 q (pre ++ [a]) = decoded2024 q (pre ++ [b]) := by
      intro q
      unfold decoded2024
      rw [sliceToLast_append, sliceToLast_append, hoff]
    unfold parse_2024_quartile_zone_entries
    simp only [h1]
  · intro lines fmt h
    have hd : decoded2023 lines = [] := by
      unfold decoded2023
      rw [sliceToLast_single lines _ h]
      rfl
    refine ⟨hd, ?_⟩
    intro hf
    have hc : ¬ (fmt ≠ "ais" ∧ fmt ≠ "jif") := by rcases hf with rfl | rfl <;> simp
    simp [parse_2023_quartile_zone_entries, if_neg hc, hd]
  · intro lines fmt qidx h
    have hd : ∀ q, decoded2024 q lines = [] := by
      intro q
      unfold decoded2024
      rw [sliceToLast_single lines _ h]
      rfl
    refine ⟨hd qidx, ?_⟩
    intro hf
    have hc : ¬ (fmt ≠ "ais" ∧ fmt ≠ "jif") := by rcases hf with rfl | rfl <;> simp
    simp [parse_2024_quartile_zone_entries, if_neg hc, hd]

set_option maxRecDepth 400000 in
theorem last_line_never_buffered_witness :
    (parse_2023_quartile_zone_entries
        ["Computer Science - SCIE Journal Of Testing 1234-5678 N/A Q2 7", "u"] "jif" =
      parse_2023_quartile_zone_entries
        ["Computer Science - SCIE Journal Of Testing 1234-5678 N/A Q2 7", "v"] "jif") ∧
    (parse_2024_quartile_zone_entries
        ["Journal Of Testing 1234-5678 N/A Computer Science SCIE Q2 Q3", "u"] "jif" =
      parse_2024_quartile_zone_entries
        ["Journal Of Testing 1234-5678 N/A Computer Science SCIE Q2 Q3", "v"] "jif") ∧
    (decoded2023 ["Revista", "x"] = [] ∧
      ("jif" = "ais" ∨ "jif" = "jif" →
        parse_2023_quartile_zone_entries ["Revista", "x"] "jif" =
          .error (.runtimeError "No journals found on page"))) ∧
    (decoded2024 5
        ["Journal name ISSN eISSN Category Edition JIF Quartile AIS Quartile", "x"] = [] ∧
      ("jif" = "ais" ∨ "jif" = "jif" →
        parse_2024_quartile_zone_entries
          ["Journal name ISSN eISSN Category Edition JIF Quartile AIS Quartile", "x"] "jif" =
          .error (.runtimeError "No journals found on page"))) :=
  ⟨last_line_never_buffered.1
      ["Computer Science - SCIE Journal Of Testing 1234-5678 N/A Q2 7"] "u" "v" "jif" rfl,
   last_line_never_buffered.2.1
      ["Journal Of Testing 1234-5678 N/A Computer Science SCIE Q2 Q3"] "u" "v" "jif" rfl,
   last_line_never_buffered.2.2.1 ["Revista", "x"] "jif" rfl,
   last_line_never_buffered.2.2.2
      ["Journal name ISSN eISSN Category Edition JIF Quartile AIS Quartile", "x"] "jif" 5 rfl⟩
